import Mathlib

/-!
Verification of the animation frame scheduler and property-tree engine of
`react-native-reanimated` (`src/reanimated2/hook/utils.ts` and
`src/reanimated2/hook/useAnimatedStyle.ts`).

The TypeScript source is shallowly embedded: JavaScript runtime values are the
inductive `Val`, JavaScript exceptions (`TypeError` on property access of
`null`/`undefined`, calling a non-function) are `Except String`, and in-place
object mutation is modelled by explicit state passing, exploiting that the
source's aliasing (e.g. `oldValues` aliasing `state.last`) is tracked by
re-reading the threaded state at the corresponding program points.

JavaScript numbers are modelled by `JsNum`, keeping the distinctions that the
dependency-fingerprint code observes (`NaN` is not `===`-equal to itself,
`-0 === 0` but `Object.is(-0, 0)` is false).  The opaque animation callbacks
(`onStart`, `onFrame`, `callback`) are modelled as first-order function values
(`JsFun`) with a small interpreter; the code under verification only stores,
null-tests and invokes them.
-/

namespace RNR

/-- Model of a JavaScript number: `NaN`, `-0`, or an integer.  (The code under
verification performs no arithmetic on numbers; it only stores them and
compares them with `===` / `Object.is`.) -/
inductive JsNum where
  | nan : JsNum
  | negZero : JsNum
  | i : Int → JsNum
deriving DecidableEq, Repr

/-- JavaScript `===` on numbers: `NaN` equals nothing, `-0 === 0`. -/
def numStrictEq : JsNum → JsNum → Bool
  | .nan, _ => false
  | _, .nan => false
  | .negZero, .negZero => true
  | .negZero, .i n => n == 0
  | .i n, .negZero => n == 0
  | .i a, .i b => a == b

/-- `Object.is` on numbers: `NaN` equals `NaN`, `-0` is distinct from `0`. -/
def numIs : JsNum → JsNum → Bool
  | .nan, .nan => true
  | .nan, _ => false
  | _, .nan => false
  | .negZero, .negZero => true
  | .negZero, .i _ => false
  | .i _, .negZero => false
  | .i a, .i b => a == b

/-- JavaScript truthiness of a number (`NaN`, `0` and `-0` are falsy). -/
def numTruthy : JsNum → Bool
  | .nan => false
  | .negZero => false
  | .i n => n != 0

mutual
/-- A JavaScript runtime value as observed by the code under verification.
Arrays carry their elements and (since JS arrays are objects) their
non-index string properties.  Object fields are kept in insertion order,
as `Object.keys` / `for…in` enumeration order. -/
inductive Val where
  | undefined : Val
  | null : Val
  | bool : Bool → Val
  | num : JsNum → Val
  | str : String → Val
  | arr : List Val → List (String × Val) → Val
  | obj : List (String × Val) → Val
  | fn : JsFun → Val

/-- A function value stored in a property (`onStart`, `onFrame`, `callback`).
The code only stores, truthiness-tests and invokes these, so they are
modelled as first-order behaviour descriptions interpreted at call sites. -/
inductive JsFun where
  | frame : FrameFn → JsFun
  | start : StartFn → JsFun
  | callbackFn : JsFun

/-- Behaviour of an `onFrame` callback: `onFrame(animation, timestamp)` mutates
`animation` and returns whether the animation finished. -/
inductive FrameFn where
  /-- set `animation.current` to the given value and return the given flag -/
  | constF : Val → Bool → FrameFn
  /-- leave `animation.current` unchanged and return the given flag -/
  | idF : Bool → FrameFn

/-- Behaviour of an `onStart` callback:
`onStart(animation, value, timestamp, previousAnimation)`. -/
inductive StartFn where
  /-- set `animation.current` to the seed value (the typical behaviour of
  animation definitions) -/
  | seedS : StartFn
  /-- do nothing -/
  | noopS : StartFn
end

deriving instance Repr for Val

/-- Association-list lookup for object fields; a missing field reads as
`undefined`, as in JavaScript. -/
def lookupF (fields : List (String × Val)) (k : String) : Val :=
  match fields.find? (fun p => p.1 == k) with
  | some p => p.2
  | none => .undefined

/-- Property write `o[k] = x`: overwrite in place if the key exists (keeping
enumeration order), else append, as in JavaScript. -/
def setFields (fields : List (String × Val)) (k : String) (x : Val) : List (String × Val) :=
  if fields.any (fun p => p.1 == k) then
    fields.map (fun p => if p.1 == k then (p.1, x) else p)
  else fields ++ [(k, x)]

/-- `delete o[k]` on an object's fields. -/
def deleteFields (fields : List (String × Val)) (k : String) : List (String × Val) :=
  fields.filter (fun p => p.1 != k)

/-- The numeric value of a decimal digit character. -/
def digitVal? (c : Char) : Option Nat :=
  if c = '0' then some 0 else if c = '1' then some 1 else if c = '2' then some 2
  else if c = '3' then some 3 else if c = '4' then some 4 else if c = '5' then some 5
  else if c = '6' then some 6 else if c = '7' then some 7 else if c = '8' then some 8
  else if c = '9' then some 9 else none

/-- Accumulate a decimal numeral. -/
def digitsVal : List Char → Nat → Option Nat
  | [], acc => some acc
  | c :: cs, acc =>
    match digitVal? c with
    | some d => digitsVal cs (acc * 10 + d)
    | none => none

/-- Parse a numeric property key (an array index written in decimal). -/
def strIndex? (k : String) : Option Nat :=
  match k.data with
  | [] => none
  | cs => digitsVal cs 0

/-- JavaScript property read `v[k]`: throws a `TypeError` on `null`/`undefined`;
reads elements or string properties of arrays (numeric strings index the
elements); characters of strings; `undefined` on other primitives. -/
def valGetStrE (v : Val) (k : String) : Except String Val :=
  match v with
  | .undefined => .error "TypeError: cannot read properties of undefined"
  | .null => .error "TypeError: cannot read properties of null"
  | .obj fields => .ok (lookupF fields k)
  | .arr items props =>
    match strIndex? k with
    | some i => .ok (items.getD i .undefined)
    | none => .ok (lookupF props k)
  | .str s =>
    match strIndex? k with
    | some i =>
      match s.data.get? i with
      | some c => .ok (.str (String.mk [c]))
      | none => .ok .undefined
    | none => .ok .undefined
  | _ => .ok .undefined

/-- Total property read: like `valGetStrE` but `undefined` instead of a
`TypeError` (used to model `v?.k` and reads the code performs on values it has
already established to be objects). -/
def getStrD (v : Val) (k : String) : Val :=
  match valGetStrE v k with
  | .ok x => x
  | .error _ => .undefined

/-- Property write `v[k] = x`; writes to a primitive are silently dropped
(non-strict JavaScript).  Writing an out-of-range index of an array is not
modelled (the code never does it). -/
def valSetStr (v : Val) (k : String) (x : Val) : Val :=
  match v with
  | .obj fields => .obj (setFields fields k x)
  | .arr items props =>
    match strIndex? k with
    | some i => .arr (items.set i x) props
    | none => .arr items (setFields props k x)
  | _ => v

/-- `delete v[k]`; deleting an array element (leaving a hole) is not modelled
(the code only deletes keys of plain objects or string props of arrays). -/
def valDeleteStr (v : Val) (k : String) : Val :=
  match v with
  | .obj fields => .obj (deleteFields fields k)
  | .arr items props =>
    match strIndex? k with
    | some _ => .arr items props
    | none => .arr items (deleteFields props k)
  | _ => v

/-- JavaScript truthiness. -/
def valTruthy : Val → Bool
  | .undefined => false
  | .null => false
  | .bool b => b
  | .num n => numTruthy n
  | .str s => !s.isEmpty
  | .arr _ _ => true
  | .obj _ => true
  | .fn _ => true

/-- `typeof v`. -/
def jsTypeof : Val → String
  | .undefined => "undefined"
  | .null => "object"
  | .bool _ => "boolean"
  | .num _ => "number"
  | .str _ => "string"
  | .arr _ _ => "object"
  | .obj _ => "object"
  | .fn _ => "function"

/-- `Array.isArray v`. -/
def isArrV : Val → Bool
  | .arr _ _ => true
  | _ => false

/-- `typeof v === 'object'` (true for `null`, arrays and plain objects). -/
def typeofObjectB : Val → Bool
  | .null => true
  | .arr _ _ => true
  | .obj _ => true
  | _ => false

/-- `v !== undefined` as the code tests it (a constructor-level check). -/
def notUndefB : Val → Bool
  | .undefined => false
  | _ => true

/-- `v ?? d` (nullish coalescing). -/
def nullishD (v d : Val) : Val :=
  match v with
  | .undefined => d
  | .null => d
  | _ => v

/-- `for…in` / `Object.keys` enumeration order: object fields in insertion
order; for arrays the element indices (as strings) followed by string props;
nothing for primitives, `null` and `undefined` (`for…in` over those iterates
zero times). -/
def forInKeys : Val → List String
  | .obj fields => fields.map (·.1)
  | .arr items props => (List.range items.length).map toString ++ props.map (·.1)
  | _ => []

/-- `Object.keys v`: same enumeration as `forInKeys` but throws a `TypeError`
on `null`/`undefined`. -/
def jsObjectKeysE : Val → Except String (List String)
  | .undefined => .error "TypeError: Object.keys called on undefined"
  | .null => .error "TypeError: Object.keys called on null"
  | v => .ok (forInKeys v)

/-- The own enumerable (key, value) pairs of `v`, for `Object.assign`. -/
def ownFields : Val → List (String × Val)
  | .obj fields => fields
  | .arr items props => (items.enum.map (fun p => (toString p.1, p.2))) ++ props
  | _ => []

/-- `Object.assign({}, a, b)`: a fresh object holding `a`'s enumerable fields
overwritten by `b`'s. -/
def objAssign (a b : Val) : Val :=
  .obj ((ownFields a ++ ownFields b).foldl (fun acc p => setFields acc p.1 p.2) [])

/-- Quote a string for JSON output (escaping `"` and `\`). -/
def jsonQuote (s : String) : String :=
  "\"" ++ s.data.foldl
    (fun acc c =>
      if c = '"' then acc ++ "\\\""
      else if c = '\\' then acc ++ "\\\\"
      else acc ++ String.mk [c]) "" ++ "\""

/-- `JSON.stringify` of a number (`NaN` serialises as `null`, `-0` as `0`). -/
def jsonNum : JsNum → String
  | .nan => "null"
  | .negZero => "0"
  | .i n => toString n

/-- Serialised array elements, `undefined`/functions becoming `null`; `f` is
the serialisation of the element values. -/
def jsonItems (f : Val → Option String) : List Val → List String
  | [] => []
  | v :: rest => ((f v).getD "null") :: jsonItems f rest

/-- Serialised object entries, fields with `undefined`/function values
skipped. -/
def jsonFields (f : Val → Option String) : List (String × Val) → List String
  | [] => []
  | (k, v) :: rest =>
    match f v with
    | some s => (jsonQuote k ++ ":" ++ s) :: jsonFields f rest
    | none => jsonFields f rest

/-- `JSON.stringify v` — `none` models the `undefined` result (for `undefined`
and function values).  Inside arrays those become `null`; inside objects the
field is skipped.  Non-index string props of arrays are not serialised.  The
recursion budget `fuel` only makes Lean accept the definition. -/
def jsonStringify : Nat → Val → Option String
  | 0, _ => none
  | fuel + 1, v =>
    match v with
    | .undefined => none
    | .null => some "null"
    | .bool b => some (if b then "true" else "false")
    | .num n => some (jsonNum n)
    | .str s => some (jsonQuote s)
    | .fn _ => none
    | .arr items _ =>
      some ("[" ++ String.intercalate "," (jsonItems (jsonStringify fuel) items) ++ "]")
    | .obj fields =>
      some ("\x7b" ++ String.intercalate "," (jsonFields (jsonStringify fuel) fields) ++ "\x7d")

/-- The comparison `JSON.stringify a !== JSON.stringify b` used by `styleDiff`
(where both sides may be the `undefined` result). -/
def jsonNeqB (a b : Option String) : Bool :=
  match a, b with
  | none, none => false
  | none, some _ => true
  | some _, none => true
  | some x, some y => x != y

/-- JavaScript `===`.  On primitives this is exact.  On objects, arrays and
functions the source's `===` is *reference* equality, which a pure embedding
cannot track; it is modelled as `false` (distinct references).  This is
observationally faithful everywhere the code compares possibly-composite
values with `===`: only in `styleDiff`'s conjunction
`oldValue !== value && JSON.stringify(oldValue) !== JSON.stringify(value)`,
and since reference-equal values always serialise identically, the
conjunction's outcome under any reference assignment consistent with the
structure equals its outcome with composite `===` taken as `false`. -/
def strictEqB : Val → Val → Bool
  | .undefined, .undefined => true
  | .null, .null => true
  | .bool a, .bool b => a == b
  | .num a, .num b => numStrictEq a b
  | .str a, .str b => a == b
  | _, _ => false

/-! ## Dependency tracker (`utils.ts`: `buildWorkletsHash`, `buildDependencies`,
`areDependenciesEqual`) -/

/-- `Object.is` (the comparator of `areDependenciesEqual`; the `is` fallback in
the source has the same semantics): `NaN` equals `NaN` and `0` is distinct
from `-0`; otherwise as `===` (with the same reference-equality caveat as
`strictEqB`, irrelevant for the numeric fingerprints compared here). -/
def objectIs (x y : Val) : Bool :=
  match x, y with
  | .num a, .num b => numIs a b
  | _, _ => strictEqB x y

/-- Position-wise comparison loop of `areDependenciesEqual`
(`for (let i = 0; …) if (!objectIs(nextDeps[i], prevDeps[i])) return false`). -/
def depsAllEq : List Val → List Val → Bool
  | [], _ => true
  | _, [] => true
  | n :: ns, p :: ps => objectIs n p && depsAllEq ns ps

/-- `areDependenciesEqual(nextDeps, prevDeps)` from `utils.ts`: `false` when
either list is absent (`undefined`/`null`) or the lengths differ, else
position-wise `Object.is` comparison. -/
def areDependenciesEqual (nextDeps prevDeps : Option (List Val)) : Bool :=
  match nextDeps, prevDeps with
  | none, _ => false
  | _, none => false
  | some n, some p => if p.length != n.length then false else depsAllEq n p

/-- A worklet function as the dependency builder observes it: its stable
content hash and its closed-over values. -/
structure WorkletFunction where
  workletHash : Int
  closure : Val

/-- `buildWorkletsHash(handlers)` from `utils.ts`: the concatenation of each
worklet's hash rendered as a decimal string. -/
def buildWorkletsHash (handlers : List WorkletFunction) : String :=
  handlers.foldl (fun acc w => acc ++ toString w.workletHash) ""

/-- `buildDependencies(dependencies, handlers)` from `utils.ts`.  The caller's
array is mutated in place when supplied; the pure model returns the
caller-visible array after the call (which is also the function's return
value, the very same array object in the source). -/
def buildDependencies (dependencies : Option (List Val))
    (handlers : List (Option WorkletFunction)) : List Val :=
  let handlersList := handlers.filterMap id
  match dependencies with
  | none =>
    handlersList.map (fun h =>
      .obj [("workletHash", .num (.i h.workletHash)), ("closure", h.closure)])
  | some deps => deps ++ [.str (buildWorkletsHash handlersList)]

/-! ## Style differ (`utils.ts`: `isAnimated`, `styleDiff`,
`getStyleWithoutAnimations`, `validateAnimatedStyles`) -/

/-- The inner `for (const key in item) if (item[key].onFrame !== undefined)`
loop of `isAnimated`'s array branch.  `item[key].onFrame` throws a `TypeError`
when the entry is `null` or `undefined`. -/
def isAnimFields (item : Val) : List String → Except String Bool
  | [] => .ok false
  | k :: ks => do
    let v ← valGetStrE item k
    let onf ← valGetStrE v "onFrame"
    if notUndefB onf then .ok true else isAnimFields item ks

/-- The outer element loop of `isAnimated`'s array branch. -/
def isAnimItems : List Val → Except String Bool
  | [] => .ok false
  | item :: rest => do
    let r ← isAnimFields item (forInKeys item)
    if r then .ok true else isAnimItems rest

/-- `isAnimated(prop)` from `utils.ts`: for arrays, whether any element has a
member exposing `onFrame`; otherwise `prop?.onFrame !== undefined`. -/
def isAnimatedE (prop : Val) : Except String Bool :=
  match prop with
  | .arr items _ => isAnimItems items
  | .null => .ok false
  | .undefined => .ok false
  | v => .ok (notUndefB (getStrD v "onFrame"))

/-- First loop of `styleDiff`: keys of `oldStyle` whose value in `newStyle`
reads as `undefined` produce an explicit `null` removal marker. -/
def styleDiffRemovals (newStyle : Val) : List String → Val → Except String Val
  | [], diff => .ok diff
  | k :: ks, diff => do
    let nv ← valGetStrE newStyle k
    if notUndefB nv then styleDiffRemovals newStyle ks diff
    else styleDiffRemovals newStyle ks (valSetStr diff k .null)

/-- Second loop of `styleDiff`: animated keys are skipped; a key is included
exactly when `oldValue !== value && JSON.stringify(oldValue) !==
JSON.stringify(value)`. -/
def styleDiffAdds (fuel : Nat) (oldStyle newStyle : Val) : List String → Val → Except String Val
  | [], diff => .ok diff
  | k :: ks, diff => do
    let value ← valGetStrE newStyle k
    let oldValue ← valGetStrE oldStyle k
    let b ← isAnimatedE value
    if b then styleDiffAdds fuel oldStyle newStyle ks diff
    else if !strictEqB oldValue value &&
        jsonNeqB (jsonStringify fuel oldValue) (jsonStringify fuel value) then
      styleDiffAdds fuel oldStyle newStyle ks (valSetStr diff k value)
    else styleDiffAdds fuel oldStyle newStyle ks diff

/-- `styleDiff(oldStyle, newStyle)` from `utils.ts`. -/
def styleDiff (fuel : Nat) (oldStyle newStyle : Val) : Except String Val := do
  let oldKeys ← jsObjectKeysE oldStyle
  let diff ← styleDiffRemovals newStyle oldKeys (.obj [])
  let newKeys ← jsObjectKeysE newStyle
  styleDiffAdds fuel oldStyle newStyle newKeys diff

/-- The `for (const key in newStyle)` loop of `getStyleWithoutAnimations`. -/
def gswaLoop (newStyle : Val) : List String → Val → Except String Val
  | [], diff => .ok diff
  | k :: ks, diff => do
    let value ← valGetStrE newStyle k
    let b ← isAnimatedE value
    if b then gswaLoop newStyle ks diff
    else gswaLoop newStyle ks (valSetStr diff k value)

/-- `getStyleWithoutAnimations(newStyle)` from `utils.ts`: the non-animated
subset of a property tree. -/
def getStyleWithoutAnimations (newStyle : Val) : Except String Val :=
  gswaLoop newStyle (forInKeys newStyle) (.obj [])

/-- `validateAnimatedStyles(styles)` from `utils.ts`: throws when the producer
result is not `typeof 'object'`, or is an array. -/
def validateAnimatedStyles (styles : Val) : Except String Unit :=
  if jsTypeof styles != "object" then
    .error ("useAnimatedStyle has to return an object, found " ++ jsTypeof styles ++ " instead")
  else if isArrV styles then
    .error "useAnimatedStyle has to return an object and cannot return static styles combined with dynamic ones. Please do merging where a component receives props."
  else .ok ()

/-! ## Tree walker (`useAnimatedStyle.ts`: `prepareAnimation`, `runAnimations`) -/

/-- `a && a[k]` as used when descending into the previous trees: a falsy `a`
(including `null`/`undefined`) short-circuits to itself, never throwing. -/
def jsAndGet (v : Val) (k : String) : Except String Val :=
  if valTruthy v then valGetStrE v k else .ok v

/-- Seed-value resolution of `prepareAnimation` (`useAnimatedStyle.ts` lines
281-300), starting from the node's declared `current`.  Reading
`lastValue.value` throws when `lastValue` is `null` (which is
`typeof 'object'`). -/
def computeSeed (declaredCurrent lastAnimation lastValue : Val) : Except String Val :=
  if notUndefB lastValue then
    if typeofObjectB lastValue then do
      let lv ← valGetStrE lastValue "value"
      if notUndefB lv then
        -- previously it was a shared value
        .ok lv
      else do
        let onf ← valGetStrE lastValue "onFrame"
        if notUndefB onf then
          -- `lastAnimation?.current` — the in-flight value of the previous
          -- animation, if any
          let la := getStrD lastAnimation "current"
          if notUndefB la then .ok la
          else
            let lvc := getStrD lastValue "current"
            if notUndefB lvc then .ok lvc
            else .ok declaredCurrent
        else .ok declaredCurrent
    else
      -- previously it was a plain value, just set it as starting point
      .ok lastValue
  else .ok declaredCurrent

/-- Invocation `animation.onStart(animation, value, timestamp, lastAnimation)`:
interpreted through the stored `StartFn`; calling a non-function throws. -/
def applyOnStart (onStart node seed : Val) : Except String Val :=
  match onStart with
  | .fn (.start .seedS) => .ok (valSetStr node "current" seed)
  | .fn (.start .noopS) => .ok node
  | .fn _ => .error "unmodelled callable passed as onStart"
  | _ => .error "TypeError: animation.onStart is not a function"

/-- The per-index walk of `prepareAnimation`'s array branch
(`animatedProp.forEach((prop, index) => …)`, with
`lastAnimation && lastAnimation[index]`).  `prep` is the recursive call at
the remaining budget. -/
def prepareItems (prep : Val → Val → Val → Except String (Val × List Val))
    (idx : Nat) (items : List Val) (lastAnimation lastValue : Val) :
    Except String (List Val × List Val) :=
  match items with
  | [] => .ok ([], [])
  | c :: rest => do
    let la ← jsAndGet lastAnimation (toString idx)
    let lv ← jsAndGet lastValue (toString idx)
    let (c', e1) ← prep c la lv
    let (rest', e2) ← prepareItems prep (idx + 1) rest lastAnimation lastValue
    .ok (c' :: rest', e1 ++ e2)

/-- The per-key walk of `prepareAnimation`'s object branch
(`Object.keys(animatedProp).forEach((key) => …)`). -/
def prepareProps (prep : Val → Val → Val → Except String (Val × List Val))
    (fields : List (String × Val)) (lastAnimation lastValue : Val) :
    Except String (List (String × Val) × List Val) :=
  match fields with
  | [] => .ok ([], [])
  | (k, v) :: rest => do
    let la ← jsAndGet lastAnimation k
    let lv ← jsAndGet lastValue k
    let (v', e1) ← prep v la lv
    let (rest', e2) ← prepareProps prep rest lastAnimation lastValue
    .ok ((k, v') :: rest', e1 ++ e2)

/-- `prepareAnimation(animatedProp, lastAnimation, lastValue)` from
`useAnimatedStyle.ts` lines 262-317.  Returns the node after its in-place
mutations together with the list of seed values passed to `onStart`
invocations, in order.  The `return animatedProp` after the array walk is
commented out in the source, so an array **falls through** to the
`typeof === 'object'` branch and its elements are walked a second time via
`Object.keys` (index keys, then string props).  The recursion budget `fuel`
only makes Lean accept the definition; every run in this file stays far below
it. -/
def prepareAnimation : Nat → Val → Val → Val → Except String (Val × List Val)
  | 0, _, _, _ => .error "recursion budget exhausted"
  | fuel + 1, node, lastAnimation, lastValue => do
    let (node1, evts1) ←
      match node with
      | .arr items props => do
        let (items', e) ← prepareItems (prepareAnimation fuel) 0 items lastAnimation lastValue
        .ok ((.arr items' props : Val), e)
      | _ => .ok (node, ([] : List Val))
    if typeofObjectB node1 then do
      let onf ← valGetStrE node1 "onFrame"
      if valTruthy onf then do
        let declared ← valGetStrE node1 "current"
        let seed ← computeSeed declared lastAnimation lastValue
        let onStart ← valGetStrE node1 "onStart"
        let node2 ← applyOnStart onStart node1 seed
        -- `animation.callStart = …; animation.callStart(getTimestamp());
        -- animation.callStart = null;` — net effect: `onStart` applied once,
        -- `callStart` left `null`.
        .ok (valSetStr node2 "callStart" .null, evts1 ++ [seed])
      else
        match node1 with
        | .obj fields => do
          let (fields', e) ← prepareProps (prepareAnimation fuel) fields lastAnimation lastValue
          .ok ((.obj fields' : Val), evts1 ++ e)
        | .arr items props => do
          let (items', e1) ← prepareItems (prepareAnimation fuel) 0 items lastAnimation lastValue
          let (props', e2) ← prepareProps (prepareAnimation fuel) props lastAnimation lastValue
          .ok ((.arr items' props' : Val), evts1 ++ e1 ++ e2)
        | _ => .ok (node1, evts1)
    else .ok (node1, evts1)

/-- Result of one `runAnimations` call: the returned `finished` flag, the node
after its in-place mutations, the value written into `result[key]` (`none`
when nothing was written, i.e. on the inactive early return), and the
arguments of `callback` invocations. -/
structure RunRes where
  finished : Bool
  node : Val
  written : Option Val
  cbs : List Bool
deriving Repr

/-- `animation.onFrame(animation, timestamp)`: interpreted through the stored
`FrameFn`; calling a truthy non-function throws. -/
def callOnFrame (onf node : Val) : Except String (Val × Bool) :=
  match onf with
  | .fn (.frame (.constF v fin)) => .ok (valSetStr node "current" v, fin)
  | .fn (.frame (.idF fin)) => .ok (node, fin)
  | .fn _ => .error "unmodelled callable passed as onFrame"
  | _ => .error "TypeError: animation.onFrame is not a function"

/-- The element walk of `runAnimations`' array branch; `run` is the recursive
call at the remaining budget. -/
def runItems (run : Val → Except String RunRes) (items : List Val) :
    Except String (Bool × List Val × List Val × List Bool) :=
  match items with
  | [] => .ok (true, [], [], [])
  | c :: rest => do
    let r ← run c
    let (fin, rest', writes, cbs) ← runItems run rest
    .ok (r.finished && fin, r.node :: rest', (r.written.getD .undefined) :: writes, r.cbs ++ cbs)

/-- The key walk of `runAnimations`' object branch. -/
def runProps (run : Val → Except String RunRes) (fields : List (String × Val)) :
    Except String (Bool × List (String × Val) × List (String × Val) × List Bool) :=
  match fields with
  | [] => .ok (true, [], [], [])
  | (k, v) :: rest => do
    let r ← run v
    let (fin, rest', writes, cbs) ← runProps run rest
    .ok (r.finished && fin, (k, r.node) :: rest', (k, r.written.getD .undefined) :: writes, r.cbs ++ cbs)

/-- `runAnimations(animation, timestamp, key, result, animationsActive)` from
`useAnimatedStyle.ts` lines 319-378.  `active` is `animationsActive.value`,
checked before anything else: when false the call returns `true` having
touched nothing and written nothing. -/
def runAnimations : Nat → Bool → JsNum → Val → Except String RunRes
  | fuel, active, ts, node =>
    if !active then .ok ⟨true, node, none, []⟩ else
    match fuel with
    | 0 => .error "recursion budget exhausted"
    | fuel + 1 =>
      match node with
      | .arr items props => do
        -- `result[key] = []`, then recurse per index into it
        let (fin, items', writes, cbs) ← runItems (runAnimations fuel active ts) items
        .ok ⟨fin, .arr items' props, some (.arr writes []), cbs⟩
      | _ =>
        if typeofObjectB node then do
          let onf ← valGetStrE node "onFrame"
          if valTruthy onf then
            -- Terminal node
            if valTruthy (getStrD node "finished") then
              .ok ⟨true, node, some (getStrD node "current"), []⟩
            else do
              let cs ← valGetStrE node "callStart"
              if valTruthy cs then
                -- `prepareAnimation` invokes and clears `callStart`
                -- (lines 305-306) before any node reaches the frame loop, so a
                -- still-live closure is unreachable in every modelled flow.
                .error "unreachable: callStart still set"
              else do
                let (node1, fin) ← callOnFrame onf node
                let node2 := valSetStr node1 "timestamp" (.num ts)
                if fin then do
                  let node3 := valSetStr node2 "finished" (.bool true)
                  let cb ← valGetStrE node3 "callback"
                  let cbs ←
                    if valTruthy cb then
                      match cb with
                      | .fn _ => .ok [true]
                      | _ => .error "TypeError: animation.callback is not a function"
                    else .ok ([] : List Bool)
                  .ok ⟨true, node3, some (getStrD node3 "current"), cbs⟩
                else .ok ⟨false, node2, some (getStrD node2 "current"), []⟩
          else
            match node with
            | .obj fields => do
              -- `result[key] = {}`, then recurse per key into it
              let (fin, fields', writes, cbs) ← runProps (runAnimations fuel active ts) fields
              .ok ⟨fin, .obj fields', some (.obj writes), cbs⟩
            | _ => .error "unreachable: null threw, arrays matched earlier"
        else
          -- plain leaf: passed through verbatim, always finished
          .ok ⟨true, node, some node, []⟩

/-! ## Style updater (`useAnimatedStyle.ts`: `styleUpdater`, `jestStyleUpdater`,
and the validation portion of `useAnimatedStyle`) -/

/-- The per-binding persistent state (`interface AnimatedState`).  `last` and
`animations` are JavaScript values (`animations` starts `undefined` in a fresh
`makeRemote({ last: initialStyle })` state and is reset to the *array* `[]` by
the no-animation branch).  The two booleans start `undefined`, which is
observationally `false` everywhere they are read. -/
structure AnimatedState where
  last : Val
  animations : Val
  isAnimationRunning : Bool
  isAnimationCancelled : Bool
deriving Repr

/-- The `for (const propName in animations)` loop shared by the `frame`
continuations of `styleUpdater` (lines 414-428) and `jestStyleUpdater`
(lines 503-517), which are textually identical in the source.  Threads the
`animations` object, the `last` object (aliased by `state.last`), the
`updates` accumulator, `allFinished`, the callback-invocation log, and — to
track JavaScript aliasing in a pure model — the association `stepped` of each
processed key to its node object after the tick's in-place mutations (the
caller's `newValues` may hold references to these same objects). -/
def frameLoop (fuel : Nat) (active : Bool) (ts : JsNum) :
    List String → Val → Val → Val → Bool → List Bool → List (String × Val) →
    Except String (Val × Val × Val × Bool × List Bool × List (String × Val))
  | [], animations, last, updates, allFinished, cbs, stepped =>
    .ok (animations, last, updates, allFinished, cbs, stepped)
  | k :: rest, animations, last, updates, allFinished, cbs, stepped => do
    let node ← valGetStrE animations k
    let r ← runAnimations fuel active ts node
    let updates' :=
      match r.written with
      | some w => valSetStr updates k w
      | none => updates
    if r.finished then
      -- `last[propName] = updates[propName]; delete animations[propName];`
      frameLoop fuel active ts rest (valDeleteStr animations k)
        (valSetStr last k (getStrD updates' k)) updates' allFinished (cbs ++ r.cbs)
        (stepped ++ [(k, r.node)])
    else
      frameLoop fuel active ts rest (valSetStr animations k r.node) last updates' false
        (cbs ++ r.cbs) (stepped ++ [(k, r.node)])

/-- The `frame` continuation of `styleUpdater`.  Returns the state after the
tick, the commits performed (`updateProps` calls), whether another frame was
requested, the callback invocations, and the per-key mutated nodes (see
`frameLoop`).  `if (updates)` is always true (an object is truthy), so the
commit always happens. -/
def frameNative (fuel : Nat) (active : Bool) (ts : JsNum) (st : AnimatedState) :
    Except String (AnimatedState × List Val × Bool × List Bool × List (String × Val)) :=
  if st.isAnimationCancelled then
    .ok ({ st with isAnimationRunning := false }, [], false, [], [])
  else do
    let (animations, last, updates, allFinished, cbs, stepped) ←
      frameLoop fuel active ts (forInKeys st.animations) st.animations st.last (.obj [])
        true [] []
    let st' := { st with
                 animations := animations, last := last,
                 isAnimationRunning := if allFinished then false else st.isAnimationRunning }
    .ok (st', [updates], !allFinished, cbs, stepped)

/-- The `frame` continuation of `jestStyleUpdater`: identical except the
commit is skipped when `Object.keys(updates).length` is zero. -/
def frameJest (fuel : Nat) (active : Bool) (ts : JsNum) (st : AnimatedState) :
    Except String (AnimatedState × List Val × Bool × List Bool × List (String × Val)) :=
  if st.isAnimationCancelled then
    .ok ({ st with isAnimationRunning := false }, [], false, [], [])
  else do
    let (animations, last, updates, allFinished, cbs, stepped) ←
      frameLoop fuel active ts (forInKeys st.animations) st.animations st.last (.obj [])
        true [] []
    let st' := { st with
                 animations := animations, last := last,
                 isAnimationRunning := if allFinished then false else st.isAnimationRunning }
    .ok (st', if (forInKeys updates).isEmpty then [] else [updates], !allFinished, cbs, stepped)

/-- Re-establish the aliasing `newValues[key] === animations[key]` for the
keys bound as animated in the current call: after an inline frame tick those
node objects have been mutated in place, so the `newValues` the updater later
merges into `state.last` holds the mutated nodes. -/
def resyncNewValues (animatedKeys : List String) (stepped : List (String × Val))
    (newValues : Val) : Val :=
  animatedKeys.foldl (fun nv k =>
    match stepped.find? (fun p => p.1 == k) with
    | some p => valSetStr nv k p.2
    | none => nv) newValues

/-- The `for (const key in newValues)` classification loop of `styleUpdater`
(lines 393-402): animated entries are prepared and stored into `animations`
(and, since `prepareAnimation` mutates the value in place, the prepared node
is also what `newValues[key]` now holds); non-animated keys are deleted from
`animations`. -/
def bindLoopNative (fuel : Nat) :
    List String → Val → Val → Val → Bool → List String →
    Except String (Val × Val × Bool × List String)
  | [], newValues, animations, _, has, ak => .ok (newValues, animations, has, ak)
  | k :: rest, newValues, animations, oldValues, has, ak => do
    let value ← valGetStrE newValues k
    let b ← isAnimatedE value
    if b then do
      let la ← valGetStrE animations k
      let lv ← valGetStrE oldValues k
      let (value', _) ← prepareAnimation fuel value la lv
      bindLoopNative fuel rest (valSetStr newValues k value') (valSetStr animations k value')
        oldValues true (ak ++ [k])
    else
      bindLoopNative fuel rest newValues (valDeleteStr animations k) oldValues has ak

/-- `styleUpdater(viewDescriptors, updater, state, maybeViewRef,
animationsActive)` from `useAnimatedStyle.ts` lines 380-461, as a function of
the ambient `_frameTimestamp` (`none` models `undefined`; a present timestamp
of `0` is falsy), `animationsActive.value`, and the producer's result.
Returns the updated state, the ordered list of `updateProps` commits, whether
`requestFrame` was called, and the callback invocations. -/
def styleUpdater (fuel : Nat) (frameTs : Option JsNum) (active : Bool)
    (updaterResult : Val) (st : AnimatedState) :
    Except String (AnimatedState × List Val × Bool × List Bool) := do
  let animations0 := nullishD st.animations (.obj [])
  let newValues0 := nullishD updaterResult (.obj [])
  let oldValues := st.last
  let (newValues, animations, hasAnimations, animatedKeys) ←
    bindLoopNative fuel (forInKeys newValues0) newValues0 animations0 oldValues false []
  if hasAnimations then do
    let st1 := { st with animations := animations }
    let (st2, commits1, req1, cbs1, stepped) ←
      if !st1.isAnimationRunning then
        let stR := { st1 with isAnimationCancelled := false, isAnimationRunning := true }
        match frameTs with
        | some t =>
          if numTruthy t then frameNative fuel active t stR
          else .ok (stR, [], true, [], [])
        | none => .ok (stR, [], true, [], [])
      else .ok (st1, [], false, [], [])
    -- `oldValues` aliases `state.last`, and the animated entries of
    -- `newValues` alias the node objects the inline frame just mutated.
    let oldValues1 := st2.last
    let newValues1 := resyncNewValues animatedKeys stepped newValues
    let st3 := { st2 with last := objAssign oldValues1 newValues1 }
    let style ← getStyleWithoutAnimations oldValues1
    -- `if (style)` — an object is always truthy, so this commit always runs
    .ok (st3, commits1 ++ [style], req1, cbs1)
  else
    .ok ({ st with isAnimationCancelled := true, animations := .arr [] [] },
      [newValues], false, [])

/-- The `Object.keys(animations).forEach` pre-pass of `jestStyleUpdater`
(lines 479-484): keys whose value in the new result is no longer animated are
deleted from `animations`. -/
def jestPreLoop : List String → Val → Val → Except String Val
  | [], animations, _ => .ok animations
  | k :: rest, animations, newValues => do
    let value ← valGetStrE newValues k
    let b ← isAnimatedE value
    if b then jestPreLoop rest animations newValues
    else jestPreLoop rest (valDeleteStr animations k) newValues

/-- The `Object.keys(newValues).forEach` pass of `jestStyleUpdater`
(lines 485-492): animated entries are prepared and stored; there is no
delete branch here. -/
def jestBindLoop (fuel : Nat) :
    List String → Val → Val → Val → Bool → List String →
    Except String (Val × Val × Bool × List String)
  | [], newValues, animations, _, has, ak => .ok (newValues, animations, has, ak)
  | k :: rest, newValues, animations, oldValues, has, ak => do
    let value ← valGetStrE newValues k
    let b ← isAnimatedE value
    if b then do
      let la ← valGetStrE animations k
      let lv ← valGetStrE oldValues k
      let (value', _) ← prepareAnimation fuel value la lv
      jestBindLoop fuel rest (valSetStr newValues k value') (valSetStr animations k value')
        oldValues true (ak ++ [k])
    else jestBindLoop fuel rest newValues animations oldValues has ak

/-- `jestStyleUpdater` from `useAnimatedStyle.ts` lines 463-565 (the commits
go through `updatePropsJestWrapper`; the adapters and the mirror buffer are
external to this core).  Unlike `styleUpdater` it always recomputes
`state.last`, and commits a structural diff instead of the static subset. -/
def jestStyleUpdater (fuel : Nat) (frameTs : Option JsNum) (active : Bool)
    (updaterResult : Val) (st : AnimatedState) :
    Except String (AnimatedState × List Val × Bool × List Bool) := do
  let animations0 := nullishD st.animations (.obj [])
  let newValues0 := nullishD updaterResult (.obj [])
  let oldValues := st.last
  let animations1 ← jestPreLoop (forInKeys animations0) animations0 newValues0
  let (newValues, animations2, hasAnimations, animatedKeys) ←
    jestBindLoop fuel (forInKeys newValues0) newValues0 animations1 oldValues false []
  let (st2, commits1, req1, cbs1, stepped) ←
    if hasAnimations then
      let st1 := { st with animations := animations2 }
      if !st1.isAnimationRunning then
        let stR := { st1 with isAnimationCancelled := false, isAnimationRunning := true }
        match frameTs with
        | some t =>
          if numTruthy t then frameJest fuel active t stR
          else .ok (stR, [], true, [], [])
        | none => .ok (stR, [], true, [], [])
      else .ok (st1, [], false, [], [])
    else
      .ok ({ st with isAnimationCancelled := true, animations := .arr [] [] },
        ([] : List Val), false, ([] : List Bool), ([] : List (String × Val)))
  -- `oldValues` aliases `state.last`, and the animated entries of `newValues`
  -- alias the node objects an inline frame may have just mutated
  let oldValues1 := st2.last
  let newValues1 := resyncNewValues animatedKeys stepped newValues
  let diff ← styleDiff fuel oldValues1 newValues1
  let st3 := { st2 with last := objAssign oldValues1 newValues1 }
  let commits2 := if (forInKeys diff).isEmpty then [] else [diff]
  .ok (st3, commits1 ++ commits2, req1, cbs1)

/-- The initialization skeleton of `useAnimatedStyle` (lines 595-616): on the
first render (`!initRef.current`) the producer's initial result is validated
by `validateAnimatedStyles` and seeds both `initial` and the remote state's
`last`; on every later render `initial.value` is refreshed **without any
validation**. -/
structure InitRef where
  initial : Val
  remoteLast : Val
deriving Repr

/-- See `InitRef`.  `producerResult` is `initialUpdaterRun(updater)`. -/
def useAnimatedStyleInit (initRef : Option InitRef) (producerResult : Val) :
    Except String InitRef :=
  match initRef with
  | none => do
    validateAnimatedStyles producerResult
    .ok ⟨producerResult, producerResult⟩
  | some r => .ok { r with initial := producerResult }

/-! ## Representative animation nodes used in the theorems -/

/-- A representative Terminal node: an animatable scalar whose `onStart` seeds
`current` and whose `onFrame` keeps `current` and reports the given finished
flag (a one-frame view of a not-yet-converged animation when the flag is
`false`). -/
def mkTerm (current : Val) (fin : Bool) : Val :=
  .obj [("current", current), ("finished", .bool false),
        ("onStart", .fn (.start .seedS)), ("onFrame", .fn (.frame (.idF fin)))]

/-- `mkTerm` after `prepareAnimation` resolved the seed `s`: `onStart` stored
`s` into `current` and `callStart` was invoked and cleared. -/
def mkTermPrepared (s : Val) (fin : Bool) : Val :=
  .obj [("current", s), ("finished", .bool false),
        ("onStart", .fn (.start .seedS)), ("onFrame", .fn (.frame (.idF fin))),
        ("callStart", .null)]

/-! ## Clean property trees

The `styleDiff` algebraic properties hold on trees free of the two JavaScript
hazards exhibited by the counterexamples: entries explicitly set to
`undefined` (which trigger the removal-marker loop even on identical trees)
and `null`/array nodes in positions where `isAnimated` dereferences entries.
`cleanV` recognises such trees: no `undefined`/`null` entries, arrays as
plain element lists (no string props) whose elements are not themselves
arrays — the shape of producer style trees. -/

/-- Clean array elements: clean, and not directly nested arrays. -/
def cleanList (f : Val → Bool) : List Val → Bool
  | [] => true
  | v :: rest => f v && !isArrV v && cleanList f rest

/-- Clean object fields: every value clean. -/
def cleanFieldsL (f : Val → Bool) : List (String × Val) → Bool
  | [] => true
  | (_, v) :: rest => f v && cleanFieldsL f rest

/-- See the section comment; `fuel` only bounds the recursion depth. -/
def cleanV : Nat → Val → Bool
  | 0, _ => false
  | fuel + 1, v =>
    match v with
    | .undefined => false
    | .null => false
    | .bool _ => true
    | .num _ => true
    | .str _ => true
    | .fn _ => true
    | .obj fields => cleanFieldsL (cleanV fuel) fields
    | .arr items props => cleanList (cleanV fuel) items && props.isEmpty

/-- A clean value is not `undefined`. -/
theorem cleanV_notUndef {n : Nat} {v : Val} (h : cleanV n v = true) :
    notUndefB v = true := by
  cases n with
  | zero => simp [cleanV] at h
  | succ m => cases v <;> simp_all [cleanV, notUndefB]

/-- A clean value is neither `undefined` nor `null`. -/
theorem cleanV_ne_undef_null {n : Nat} {v : Val} (h : cleanV n v = true) :
    v ≠ .undefined ∧ v ≠ .null := by
  cases n with
  | zero => simp [cleanV] at h
  | succ m => cases v <;> simp_all [cleanV]

/-- Property reads never throw on values other than `undefined`/`null`. -/
theorem valGetStrE_ok (v : Val) (k : String) (h1 : v ≠ .undefined) (h2 : v ≠ .null) :
    ∃ w, valGetStrE v k = .ok w := by
  cases v <;> simp [valGetStrE] at h1 h2 ⊢
  case arr items props => cases strIndex? k <;> simp
  case str s =>
    cases strIndex? k with
    | none => simp
    | some i => cases hh : s.data[i]? <;> simp [hh]

/-- Looking up a key that occurs in clean fields yields a clean value. -/
theorem lookupF_clean {n : Nat} {fields : List (String × Val)}
    (h : cleanFieldsL (cleanV n) fields = true) {k : String}
    (hk : k ∈ fields.map Prod.fst) : cleanV n (lookupF fields k) = true := by
  induction fields with
  | nil => simp at hk
  | cons p rest ih =>
    obtain ⟨k', v'⟩ := p
    rw [cleanFieldsL] at h
    rw [Bool.and_eq_true] at h
    simp only [List.map_cons, List.mem_cons] at hk
    by_cases hkk : k' = k
    · subst hkk
      have hbeq : (k' == k') = true := beq_self_eq_true k'
      simp [lookupF, List.find?, hbeq]
      exact h.1
    · have hbeq : (k' == k) = false := by
        simp [hkk]
      have hk2 : k ∈ rest.map Prod.fst := by
        rcases hk with h' | h'
        · exact absurd h'.symm hkk
        · exact h'
      have hlk : lookupF ((k', v') :: rest) k = lookupF rest k := by
        simp [lookupF, List.find?, hbeq]
      rw [hlk]
      exact ih h.2 hk2

/-- The inner loop of `isAnimated`'s array branch succeeds when every visited
entry reads as a non-`undefined`, non-`null` value. -/
theorem isAnimFields_ok (item : Val) (ks : List String)
    (h : ∀ k ∈ ks, ∃ v, valGetStrE item k = .ok v ∧ v ≠ .undefined ∧ v ≠ .null) :
    ∃ b, isAnimFields item ks = .ok b := by
  induction ks with
  | nil => exact ⟨false, rfl⟩
  | cons k rest ih =>
    obtain ⟨v, hv, h1, h2⟩ := h k (List.mem_cons_self k rest)
    obtain ⟨w, hw⟩ := valGetStrE_ok v "onFrame" h1 h2
    obtain ⟨b, hb⟩ := ih (fun k' hk' => h k' (List.mem_cons_of_mem k hk'))
    cases hu : notUndefB w with
    | true => exact ⟨true, by simp [isAnimFields, Bind.bind, Except.bind, hv, hw, hu]⟩
    | false => exact ⟨b, by simp [isAnimFields, Bind.bind, Except.bind, hv, hw, hu, hb]⟩

/-- `isAnimated`'s array branch succeeds on a clean element list. -/
theorem isAnimItems_ok {n : Nat} (items : List Val)
    (h : cleanList (cleanV n) items = true) : ∃ b, isAnimItems items = .ok b := by
  induction items with
  | nil => exact ⟨false, rfl⟩
  | cons item rest ih =>
    rw [cleanList] at h
    rw [Bool.and_eq_true, Bool.and_eq_true] at h
    obtain ⟨⟨hitem, hnarr⟩, hrest⟩ := h
    have hfields : ∀ k ∈ forInKeys item,
        ∃ v, valGetStrE item k = .ok v ∧ v ≠ .undefined ∧ v ≠ .null := by
      intro k hk
      cases n with
      | zero => simp [cleanV] at hitem
      | succ m =>
        cases item with
        | obj fields =>
          rw [cleanV] at hitem
          have hv := lookupF_clean hitem (by simpa [forInKeys] using hk)
          exact ⟨lookupF fields k, rfl, (cleanV_ne_undef_null hv).1,
            (cleanV_ne_undef_null hv).2⟩
        | arr items' props => simp [isArrV] at hnarr
        | undefined => simp [cleanV] at hitem
        | null => simp [cleanV] at hitem
        | bool b => simp [forInKeys] at hk
        | num x => simp [forInKeys] at hk
        | str s => simp [forInKeys] at hk
        | fn f => simp [forInKeys] at hk
    obtain ⟨r, hr⟩ := isAnimFields_ok item (forInKeys item) hfields
    obtain ⟨b, hb⟩ := ih hrest
    cases r with
    | true => exact ⟨true, by simp [isAnimItems, Bind.bind, Except.bind, hr]⟩
    | false => exact ⟨b, by simp [isAnimItems, Bind.bind, Except.bind, hr, hb]⟩

/-- `isAnimated` succeeds (does not throw) on every clean value. -/
theorem isAnimatedE_ok {n : Nat} {v : Val} (h : cleanV n v = true) :
    ∃ b, isAnimatedE v = .ok b := by
  cases n with
  | zero => simp [cleanV] at h
  | succ m =>
    cases v with
    | arr items props =>
      rw [cleanV] at h
      rw [Bool.and_eq_true] at h
      exact isAnimItems_ok items h.1
    | undefined => simp [cleanV] at h
    | null => simp [cleanV] at h
    | bool b => exact ⟨_, rfl⟩
    | num x => exact ⟨_, rfl⟩
    | str s => exact ⟨_, rfl⟩
    | fn f => exact ⟨_, rfl⟩
    | obj fields => exact ⟨_, rfl⟩

/-- `JSON.stringify x !== JSON.stringify x` is false. -/
theorem jsonNeqB_self (o : Option String) : jsonNeqB o o = false := by
  cases o with
  | none => rfl
  | some s => simp [jsonNeqB]

/-- The removal loop of `styleDiff` adds nothing when every key of the old
tree reads as a defined value in the new tree. -/
theorem styleDiffRemovals_nop (T : Val) (ks : List String) (d : Val)
    (h : ∀ k ∈ ks, ∃ v, valGetStrE T k = .ok v ∧ notUndefB v = true) :
    styleDiffRemovals T ks d = .ok d := by
  induction ks generalizing d with
  | nil => rfl
  | cons k rest ih =>
    obtain ⟨v, hv, hnu⟩ := h k (List.mem_cons_self k rest)
    simp only [styleDiffRemovals, Bind.bind, Except.bind, hv, hnu, if_true]
    exact ih d (fun k' hk' => h k' (List.mem_cons_of_mem k hk'))

/-- The addition loop of `styleDiff` adds nothing when, for every key, the new
value is read back successfully, classifies without throwing, and is either
animated or equal (as the same object) to the old value. -/
theorem styleDiffAdds_nop (fuelD : Nat) (oldf newf : List (String × Val))
    (ks : List String) (d : Val)
    (h : ∀ k ∈ ks, ∃ v b, valGetStrE (.obj newf) k = .ok v ∧
      isAnimatedE v = .ok b ∧ (b = true ∨ lookupF oldf k = v)) :
    styleDiffAdds fuelD (.obj oldf) (.obj newf) ks d = .ok d := by
  induction ks generalizing d with
  | nil => rfl
  | cons k rest ih =>
    obtain ⟨v, b, hv, hb, hcase⟩ := h k (List.mem_cons_self k rest)
    have ihrest := ih d (fun k' hk' => h k' (List.mem_cons_of_mem k hk'))
    cases b with
    | true => simpa [styleDiffAdds, Bind.bind, Except.bind, hv, hb] using ihrest
    | false =>
      have heq : lookupF oldf k = v := by
        rcases hcase with hcon | heq
        · cases hcon
        · exact heq
      have hveq : lookupF newf k = v := by
        simpa [valGetStrE] using hv
      simp [styleDiffAdds, Bind.bind, Except.bind, hv, valGetStrE, hveq, hb, heq,
        jsonNeqB_self]
      exact ihrest

/-! ## Claims -/

/-- C5: seed-value resolution of `prepareAnimation` follows the priority
"holder's `.value`, then the previous animation's in-flight `current`, then
the previous Terminal's own `current`, then the plain previous value, then
the node's declared `current`", and in particular a Terminal prepared against
a previous in-flight animation node is seeded with that node's `current`
(interruption continuity: a node declared to start at `z` but replacing an
animation interrupted at `c` seeds — and passes to `onStart` — `c`, not `z`).
The five conjuncts are the five priority ranks; the second also shows the
previous animation's `current` (`c`) beating the previous Terminal's own
`current` (`d`). -/
theorem C5_seed_priority :
    (∀ (la : Val) (v z : JsNum) (fin : Bool),
      prepareAnimation 32 (mkTerm (.num z) fin) la (.obj [("value", .num v)]) =
        .ok (mkTermPrepared (.num v) fin, [.num v])) ∧
    (∀ (c d z : JsNum) (fin fa fb : Bool),
      prepareAnimation 32 (mkTerm (.num z) fin)
          (mkTermPrepared (.num c) fa) (mkTermPrepared (.num d) fb) =
        .ok (mkTermPrepared (.num c) fin, [.num c])) ∧
    (∀ (d z : JsNum) (fin fb : Bool),
      prepareAnimation 32 (mkTerm (.num z) fin) .undefined (mkTermPrepared (.num d) fb) =
        .ok (mkTermPrepared (.num d) fin, [.num d])) ∧
    (∀ (la : Val) (p z : JsNum) (fin : Bool),
      prepareAnimation 32 (mkTerm (.num z) fin) la (.num p) =
        .ok (mkTermPrepared (.num p) fin, [.num p])) ∧
    (∀ (z : JsNum) (fin : Bool),
      prepareAnimation 32 (mkTerm (.num z) fin) .undefined .undefined =
        .ok (mkTermPrepared (.num z) fin, [.num z])) :=
  ⟨fun _ _ _ _ => rfl, fun _ _ _ _ _ _ => rfl, fun _ _ _ _ => rfl,
   fun _ _ _ _ => rfl, fun _ _ => rfl⟩

/-- C8: `areDependenciesEqual` is false when either list is absent or the
lengths differ; otherwise it compares position-wise with `Object.is`, under
which `NaN` equals `NaN` and `-0` is distinct from `0` — witnessed by the
spec's two examples `equal([1, NaN, -0], [1, NaN, 0]) = false` and
`equal([1, NaN], [1, NaN]) = true`. -/
theorem C8_fingerprint_equality :
    (∀ p, areDependenciesEqual none p = false) ∧
    (∀ n, areDependenciesEqual n none = false) ∧
    (∀ (a b : List Val), a.length ≠ b.length →
      areDependenciesEqual (some a) (some b) = false) ∧
    areDependenciesEqual (some [.num (.i 1), .num .nan, .num .negZero])
      (some [.num (.i 1), .num .nan, .num (.i 0)]) = false ∧
    areDependenciesEqual (some [.num (.i 1), .num .nan])
      (some [.num (.i 1), .num .nan]) = true := by
  refine ⟨fun p => ?_, fun n => ?_, fun a b h => ?_, rfl, rfl⟩
  · cases p <;> rfl
  · cases n <;> rfl
  · have hb : (b.length != a.length) = true := by simp [bne]; omega
    simp [areDependenciesEqual, hb]

/-- C8 witness: the length-differ conjunct applied at `[1]` vs `[]`. -/
theorem C8_fingerprint_equality_witness :
    areDependenciesEqual (some [Val.num (.i 1)]) (some []) = false :=
  C8_fingerprint_equality.2.2.1 [Val.num (.i 1)] [] (by decide)

/-- C1 counterexample: bind with previous `last = {h: 7}` and producer result
`{w: 50, o: Terminal}` (no synchronous frame timestamp, so the one commit of
the bind happens before the scheduled continuation).  The committed tree is
`{h: 7}` — `getStyleWithoutAnimations(oldValues)`, the non-animated subset of
the *previous* `last` only — whereas the claim's union would also contain the
newly introduced static `w: 50` (third conjunct: the new result's non-animated
subset is `{w: 50}`, and the union `{h: 7, w: 50}` differs from the committed
`{h: 7}` at key `w`). -/
theorem C1_counterexample :
    styleUpdater 32 none true
        (.obj [("w", .num (.i 50)), ("o", mkTerm (.num (.i 0)) false)])
        ⟨.obj [("h", .num (.i 7))], .undefined, false, false⟩ =
      .ok (⟨.obj [("h", .num (.i 7)), ("w", .num (.i 50)),
                  ("o", mkTermPrepared (.num (.i 0)) false)],
            .obj [("o", mkTermPrepared (.num (.i 0)) false)], true, false⟩,
           [.obj [("h", .num (.i 7))]], true, []) ∧
    getStyleWithoutAnimations
        (.obj [("w", .num (.i 50)), ("o", mkTerm (.num (.i 0)) false)]) =
      .ok (.obj [("w", .num (.i 50))]) ∧
    objAssign (.obj [("h", .num (.i 7))]) (.obj [("w", .num (.i 50))]) =
      .obj [("h", .num (.i 7)), ("w", .num (.i 50))] ∧
    getStrD (.obj [("h", .num (.i 7))]) "w" = .undefined ∧
    getStrD (.obj [("h", .num (.i 7)), ("w", .num (.i 50))]) "w" = .num (.i 50) ∧
    Val.undefined ≠ Val.num (.i 50) := by
  refine ⟨rfl, rfl, rfl, rfl, rfl, ?_⟩
  intro h
  cases h

/-- C1 amended: when the producer result contains animated entries and no
synchronous frame timestamp is available, the style updater performs exactly
one commit before the scheduled continuation runs, and the committed tree is
the non-animated subset of the *previous* `last` alone — a newly introduced
static property (`w`) does not appear in that commit, only in the updated
`state.last`.  When a synchronous timestamp *is* available and no loop is
running, the first continuation executes inline before that commit, so its
animated-values commit precedes the static-subset commit. -/
theorem C1_amended :
    (∀ (x : JsNum) (fin : Bool),
      styleUpdater 32 none true
          (.obj [("w", .num x), ("o", mkTerm (.num (.i 0)) fin)])
          ⟨.obj [("h", .num (.i 7))], .undefined, false, false⟩ =
        .ok (⟨.obj [("h", .num (.i 7)), ("w", .num x),
                    ("o", mkTermPrepared (.num (.i 0)) fin)],
              .obj [("o", mkTermPrepared (.num (.i 0)) fin)], true, false⟩,
             [.obj [("h", .num (.i 7))]], true, [])) ∧
    styleUpdater 32 (some (.i 16)) true (.obj [("o", mkTerm (.num (.i 0)) false)])
        ⟨.obj [("h", .num (.i 7))], .undefined, false, false⟩ =
      .ok (⟨.obj [("h", .num (.i 7)),
                  ("o", .obj [("current", .num (.i 0)), ("finished", .bool false),
                              ("onStart", .fn (.start .seedS)),
                              ("onFrame", .fn (.frame (.idF false))),
                              ("callStart", .null),
                              ("timestamp", .num (.i 16))])],
            .obj [("o", .obj [("current", .num (.i 0)), ("finished", .bool false),
                              ("onStart", .fn (.start .seedS)),
                              ("onFrame", .fn (.frame (.idF false))),
                              ("callStart", .null),
                              ("timestamp", .num (.i 16))])], true, false⟩,
           [.obj [("o", .num (.i 0))], .obj [("h", .num (.i 7))]], true, []) :=
  ⟨fun _ _ => rfl, rfl⟩

/-- C2 amended: `runAnimations` with the active flag false returns
`finished = true` for every animation tree and timestamp, leaving the node
untouched, writing no result entry and invoking no callback; but the
enclosing frame loop then treats every entry as finished, *deletes* it from
`state.animations` and stores `undefined` into `last` — in-flight animation
state does not survive a global suspension (second conjunct, at a state
holding one prepared in-flight entry `w`). -/
theorem C2_amended :
    (∀ (fuel : Nat) (ts : JsNum) (node : Val),
      runAnimations fuel false ts node = .ok ⟨true, node, none, []⟩) ∧
    frameNative 32 false (.i 16)
        ⟨.obj [("w", .num (.i 0))], .obj [("w", mkTermPrepared (.num (.i 5)) false)],
         true, false⟩ =
      .ok (⟨.obj [("w", .undefined)], .obj [], false, false⟩, [.obj []], false, [],
           [("w", mkTermPrepared (.num (.i 5)) false)]) := by
  refine ⟨fun fuel ts node => ?_, rfl⟩
  cases fuel <;> rfl

/-- C3 amended: `state.last` becomes the key-wise merge of the previous `last`
with the new result in `jestStyleUpdater` (both branches) and in
`styleUpdater`'s animated branch; but in `styleUpdater`'s no-animation branch
`state.last` is left unchanged (first conjunct, for every starting state). -/
theorem C3_amended :
    (∀ (st : AnimatedState) (x : JsNum),
      styleUpdater 32 none true (.obj [("w", .num x)]) st =
        .ok ({ st with isAnimationCancelled := true, animations := .arr [] [] },
             [.obj [("w", .num x)]], false, []) ∧
      ({ st with isAnimationCancelled := true,
                 animations := (.arr [] [] : Val) } : AnimatedState).last = st.last) ∧
    (∀ (x : JsNum),
      jestStyleUpdater 32 none true (.obj [("w", .num x)])
          ⟨.obj [("h", .num (.i 7))], .undefined, false, false⟩ =
        .ok (⟨objAssign (.obj [("h", .num (.i 7))]) (.obj [("w", .num x)]),
              .arr [] [], false, true⟩,
             [.obj [("h", .null), ("w", .num x)]], false, [])) ∧
    (∀ (fin : Bool),
      (styleUpdater 32 none true (.obj [("o", mkTerm (.num (.i 0)) fin)])
          ⟨.obj [("h", .num (.i 7))], .undefined, false, false⟩).map (fun r => r.1.last) =
        .ok (objAssign (.obj [("h", .num (.i 7))])
              (.obj [("o", mkTermPrepared (.num (.i 0)) fin)]))) :=
  ⟨fun _ _ => ⟨rfl, rfl⟩, fun _ => rfl, fun _ => rfl⟩

/-- C4 amended: after a bind whose new result still has an animated entry,
`jestStyleUpdater` deletes every previously in-flight key that is no longer
animated — including keys entirely absent from the new result — while
`styleUpdater` deletes only keys *present* in the new result that are no
longer animated; a key entirely absent from the new result is retained in
`state.animations` (third conjunct). -/
theorem C4_amended :
    (∀ (a b : JsNum),
      jestStyleUpdater 32 none true (.obj [("b", mkTerm (.num b) false)])
          ⟨.obj [], .obj [("a", mkTermPrepared (.num a) false)], false, false⟩ =
        .ok (⟨.obj [("b", mkTermPrepared (.num b) false)],
              .obj [("b", mkTermPrepared (.num b) false)], true, false⟩,
             [], true, [])) ∧
    (∀ (a x : JsNum),
      styleUpdater 32 none true
          (.obj [("a", .num x), ("b", mkTerm (.num (.i 1)) false)])
          ⟨.obj [], .obj [("a", mkTermPrepared (.num a) false)], false, false⟩ =
        .ok (⟨.obj [("a", .num x), ("b", mkTermPrepared (.num (.i 1)) false)],
              .obj [("b", mkTermPrepared (.num (.i 1)) false)], true, false⟩,
             [.obj []], true, [])) ∧
    (∀ (a : JsNum),
      (styleUpdater 32 none true (.obj [("b", mkTerm (.num (.i 2)) false)])
          ⟨.obj [], .obj [("a", mkTermPrepared (.num a) false)], false, false⟩).map
          (fun r => r.1.animations) =
        .ok (.obj [("a", mkTermPrepared (.num a) false),
                   ("b", mkTermPrepared (.num (.i 2)) false)])) :=
  ⟨fun _ _ => rfl, fun _ _ => rfl, fun _ => rfl⟩

/-- C6 amended: `validateAnimatedStyles` raises a shape error exactly when the
producer result is not `typeof 'object'` or is an array (note `null` passes,
being `typeof 'object'`), but this validation runs only at the first bind:
a re-render (`initRef` already present) never validates. -/
theorem C6_amended :
    (∀ v : Val,
      (validateAnimatedStyles v).isOk = ((jsTypeof v == "object") && !isArrV v)) ∧
    (∀ (r : InitRef) (v : Val),
      useAnimatedStyleInit (some r) v = .ok { r with initial := v }) := by
  refine ⟨fun v => ?_, fun r v => rfl⟩
  cases v <;> rfl

/-- C7 amended: `prepare` and `step` are total in the model (so they
terminate), and they tolerate missing (`undefined`) correspondences and type
drift between the previous and current trees — differing keys, differing
array lengths, primitives where composites stood (conjuncts 1-4; conjunct 4
also exhibits the double `onStart` invocation that the fall-through array walk
performs).  However — per the counterexample — a `null` inside the current
tree, or a `null` previous value at a Terminal position, raises a
`TypeError`. -/
theorem C7_amended :
    (∀ (z : JsNum) (fin : Bool),
      (prepareAnimation 32 (.obj [("k", mkTerm (.num z) fin)]) .undefined .undefined).isOk = true) ∧
    (∀ (z : JsNum) (fin : Bool),
      prepareAnimation 32 (mkTerm (.num z) fin) (.obj [("x", .num (.i 1))]) (.obj []) =
        .ok (mkTermPrepared (.num z) fin, [.num z])) ∧
    (∀ (z : JsNum) (fin : Bool),
      (prepareAnimation 32 (.obj [("k", mkTerm (.num z) fin)])
        (.num (.i 3)) (.num (.i 4))).isOk = true) ∧
    (∀ (z y : JsNum) (f1 f2 : Bool),
      prepareAnimation 32 (.arr [mkTerm (.num z) f1, mkTerm (.num y) f2] [])
          .undefined (.arr [.num (.i 5)] []) =
        .ok (.arr [mkTermPrepared (.num (.i 5)) f1, mkTermPrepared (.num y) f2] [],
             [.num (.i 5), .num y, .num (.i 5), .num y])) ∧
    (∀ (z : JsNum) (ts : JsNum),
      runAnimations 32 true ts (.obj [("k", .num z)]) =
        .ok ⟨true, .obj [("k", .num z)], some (.obj [("k", .num z)]), []⟩) ∧
    (∀ (z : JsNum) (ts : JsNum),
      runAnimations 32 true ts (.arr [.num z] []) =
        .ok ⟨true, .arr [.num z] [], some (.arr [.num z] []), []⟩) :=
  ⟨fun _ _ => rfl, fun _ _ => rfl, fun _ _ => rfl, fun _ _ _ _ => rfl,
   fun _ _ => rfl, fun _ _ => rfl⟩

/-- C2 counterexample: a frame tick with the active flag false on a state
holding one in-flight entry `w`.  `runAnimations` reports `finished = true`
without writing anything, so the frame loop *deletes* `w` from
`state.animations` (and stores `undefined` into `last.w`), contradicting the
claim that the `animations` entries are not discarded under a global
suspension. -/
theorem C2_counterexample :
    frameNative 32 false (.i 16)
        ⟨.obj [("w", .num (.i 0))], .obj [("w", mkTerm (.num (.i 5)) false)], true, false⟩ =
      .ok (⟨.obj [("w", .undefined)], .obj [], false, false⟩, [.obj []], false, [],
           [("w", mkTerm (.num (.i 5)) false)]) ∧
    notUndefB (getStrD (.obj [("w", mkTerm (.num (.i 5)) false)]) "w") = true ∧
    getStrD (.obj ([] : List (String × Val))) "w" = .undefined := by
  exact ⟨rfl, rfl, rfl⟩

/-- C3 counterexample: `styleUpdater`'s no-animation branch does not touch
`state.last`.  With previous `last = {h: 7}` and new result `{w: 50}` the
final `last` is still `{h: 7}`, not the merge `{h: 7, w: 50}`. -/
theorem C3_counterexample :
    styleUpdater 32 none true (.obj [("w", .num (.i 50))])
        ⟨.obj [("h", .num (.i 7))], .undefined, false, false⟩ =
      .ok (⟨.obj [("h", .num (.i 7))], .arr [] [], false, true⟩,
           [.obj [("w", .num (.i 50))]], false, []) ∧
    objAssign (.obj [("h", .num (.i 7))]) (.obj [("w", .num (.i 50))]) =
      .obj [("h", .num (.i 7)), ("w", .num (.i 50))] ∧
    Val.obj [("h", .num (.i 7))] ≠
      Val.obj [("h", .num (.i 7)), ("w", .num (.i 50))] := by
  refine ⟨rfl, rfl, ?_⟩
  intro h
  have := congrArg (fun v => (forInKeys v).length) h
  simp [forInKeys] at this

/-- C4 counterexample: `styleUpdater` iterates only over the keys of the new
result, so the key `a` — in flight before the bind but entirely absent from
the new result `{b: Terminal}` — survives in `state.animations` even though
the new result still has an animated entry. -/
theorem C4_counterexample :
    styleUpdater 32 none true (.obj [("b", mkTerm (.num (.i 1)) false)])
        ⟨.obj [], .obj [("a", mkTermPrepared (.num (.i 9)) false)], false, false⟩ =
      .ok (⟨.obj [("b", mkTermPrepared (.num (.i 1)) false)],
            .obj [("a", mkTermPrepared (.num (.i 9)) false),
                  ("b", mkTermPrepared (.num (.i 1)) false)], true, false⟩,
           [.obj []], true, []) ∧
    getStrD (.obj [("a", mkTermPrepared (.num (.i 9)) false),
                   ("b", mkTermPrepared (.num (.i 1)) false)]) "a" =
      mkTermPrepared (.num (.i 9)) false ∧
    notUndefB (mkTermPrepared (.num (.i 9)) false) = true := by
  exact ⟨rfl, rfl, rfl⟩

/-- C6 counterexample: `validateAnimatedStyles` does reject a sequence result,
but it runs only on the first render (`!initRef.current`); on a re-render the
hook refreshes `initial.value` without validating, and the mapper re-run
(`styleUpdater`) commits an array result verbatim without raising — so a
shape violation on a subsequent re-run of the producer is *not* surfaced. -/
theorem C6_counterexample :
    validateAnimatedStyles (.arr [] []) =
      .error "useAnimatedStyle has to return an object and cannot return static styles combined with dynamic ones. Please do merging where a component receives props." ∧
    useAnimatedStyleInit (some ⟨.obj [], .obj []⟩) (.arr [] []) =
      .ok ⟨.arr [] [], .obj []⟩ ∧
    styleUpdater 32 none true (.arr [] []) ⟨.obj [], .undefined, false, false⟩ =
      .ok (⟨.obj [], .arr [] [], false, true⟩, [.arr [] []], false, []) := by
  exact ⟨rfl, rfl, rfl⟩

/-- C7 counterexample: the recursive tree operations do *not* tolerate every
shape: a `null` entry raises.  The array `[{sc: Terminal}, null]` is
classified as animated (so `prepareAnimation` is reached from the updaters),
yet preparing it throws a `TypeError` on `null.onFrame`; `runAnimations` on a
`null` node throws likewise; and preparing a Terminal against a previous
value `null` throws on `lastValue.value` (since `typeof null === 'object'`). -/
theorem C7_counterexample :
    isAnimatedE (.arr [.obj [("sc", mkTerm (.num (.i 1)) false)], .null] []) = .ok true ∧
    prepareAnimation 32 (.arr [.obj [("sc", mkTerm (.num (.i 1)) false)], .null] [])
        .undefined .undefined = .error "TypeError: cannot read properties of null" ∧
    runAnimations 32 true (.i 16) .null =
      .error "TypeError: cannot read properties of null" ∧
    prepareAnimation 32 (mkTerm (.num (.i 0)) false) .undefined .null =
      .error "TypeError: cannot read properties of null" := by
  exact ⟨rfl, rfl, rfl, rfl⟩

/-- C9 counterexample: `styleDiff(T, T)` is *not* empty for every tree `T`:
for `T = {a: undefined}` the first loop sees `newStyle.a === undefined` and
emits the removal marker, so `diff(T, T) = {a: null} ≠ {}`. -/
theorem C9_counterexample :
    styleDiff 32 (.obj [("a", .undefined)]) (.obj [("a", .undefined)]) =
      .ok (.obj [("a", .null)]) ∧
    Val.obj [("a", .null)] ≠ Val.obj [] := by
  refine ⟨rfl, ?_⟩
  intro h
  have := congrArg (fun v => (forInKeys v).length) h
  simp [forInKeys] at this

/-- C9 amended: for every property tree free of explicit `undefined`/`null`
entries (and with arrays as plain element lists — `cleanV`), `styleDiff(T, T)`
is the empty tree; and for two such trees with identical key lists whose
every key is either animated in the new tree or carries the same value in
both, `styleDiff` yields no entries — animated keys are excluded from
diffing even when their values differ. -/
theorem C9_amended :
    (∀ (n : Nat) (fields : List (String × Val)),
      cleanFieldsL (cleanV n) fields = true →
      styleDiff 32 (.obj fields) (.obj fields) = .ok (.obj [])) ∧
    (∀ (n : Nat) (oldf newf : List (String × Val)),
      oldf.map Prod.fst = newf.map Prod.fst →
      cleanFieldsL (cleanV n) newf = true →
      (∀ k ∈ newf.map Prod.fst,
        isAnimatedE (lookupF newf k) = .ok true ∨ lookupF oldf k = lookupF newf k) →
      styleDiff 32 (.obj oldf) (.obj newf) = .ok (.obj [])) := by
  refine ⟨fun n fields hclean => ?_, fun n oldf newf hkeys hclean hcase => ?_⟩
  · have hrem : styleDiffRemovals (.obj fields) (forInKeys (.obj fields)) (.obj []) =
        .ok (.obj []) := by
      apply styleDiffRemovals_nop
      intro k hk
      have hk' : k ∈ fields.map Prod.fst := by simpa [forInKeys] using hk
      have hcv := lookupF_clean hclean hk'
      exact ⟨lookupF fields k, rfl, cleanV_notUndef hcv⟩
    have hadds : styleDiffAdds 32 (.obj fields) (.obj fields)
        (forInKeys (.obj fields)) (.obj []) = .ok (.obj []) := by
      apply styleDiffAdds_nop
      intro k hk
      have hk' : k ∈ fields.map Prod.fst := by simpa [forInKeys] using hk
      have hcv := lookupF_clean hclean hk'
      obtain ⟨b, hb⟩ := isAnimatedE_ok hcv
      exact ⟨lookupF fields k, b, rfl, hb, Or.inr rfl⟩
    simp [styleDiff, Bind.bind, Except.bind, jsObjectKeysE, hrem, hadds]
  · have hrem : styleDiffRemovals (.obj newf) (forInKeys (.obj oldf)) (.obj []) =
        .ok (.obj []) := by
      apply styleDiffRemovals_nop
      intro k hk
      have hk' : k ∈ newf.map Prod.fst := by
        have hmem : k ∈ oldf.map Prod.fst := by simpa [forInKeys] using hk
        rwa [hkeys] at hmem
      have hcv := lookupF_clean hclean hk'
      exact ⟨lookupF newf k, rfl, cleanV_notUndef hcv⟩
    have hadds : styleDiffAdds 32 (.obj oldf) (.obj newf)
        (forInKeys (.obj newf)) (.obj []) = .ok (.obj []) := by
      apply styleDiffAdds_nop
      intro k hk
      have hk' : k ∈ newf.map Prod.fst := by simpa [forInKeys] using hk
      have hcv := lookupF_clean hclean hk'
      obtain ⟨b, hb⟩ := isAnimatedE_ok hcv
      rcases hcase k hk' with hanim | heq
      · rw [hb] at hanim
        exact ⟨lookupF newf k, b, rfl, hb, Or.inl (Except.ok.inj hanim)⟩
      · exact ⟨lookupF newf k, b, rfl, hb, Or.inr heq⟩
    simp [styleDiff, Bind.bind, Except.bind, jsObjectKeysE, hrem, hadds]

/-- C9 amended witness: both parts at concrete trees — a static tree diffed
against itself, and two trees with equal static `o` and differing animated
`a`. -/
theorem C9_amended_witness :
    styleDiff 32 (.obj [("a", .num (.i 1)), ("t", .str "x")])
        (.obj [("a", .num (.i 1)), ("t", .str "x")]) = .ok (.obj []) ∧
    styleDiff 32 (.obj [("o", .num (.i 2)), ("a", mkTerm (.num (.i 1)) false)])
        (.obj [("o", .num (.i 2)), ("a", mkTerm (.num (.i 3)) false)]) = .ok (.obj []) := by
  constructor
  · exact C9_amended.1 5 _ (by rfl)
  · refine C9_amended.2 5 _ _ rfl (by rfl) ?_
    intro k hk
    simp only [List.map_cons, List.map_nil, List.mem_cons, List.not_mem_nil,
      or_false] at hk
    rcases hk with rfl | rfl
    · exact Or.inr rfl
    · exact Or.inl rfl

/-- C10: `buildDependencies` with a caller-supplied (non-null) dependency list
appends exactly one element — the aggregate hash of the defined handlers — to
the caller's array and returns that array: the result is the input list plus
one trailing element, with the original prefix intact. -/
theorem C10_build_dependencies :
    ∀ (deps : List Val) (handlers : List (Option WorkletFunction)),
      buildDependencies (some deps) handlers =
        deps ++ [.str (buildWorkletsHash (handlers.filterMap id))] ∧
      (buildDependencies (some deps) handlers).length = deps.length + 1 ∧
      (buildDependencies (some deps) handlers).take deps.length = deps := by
  intro deps handlers
  refine ⟨rfl, ?_, ?_⟩
  · simp [buildDependencies]
  · simp only [buildDependencies]
    exact List.take_left deps _

end RNR
